import Mathlib

/-!
Verification development for the mirror-box acquisition/fusion pipeline.

Shallow embedding of the core components:
* `AngleUtils` — `src/angle_utils.py` (`AngleEngine._compute_angle`,
  `AngleEngine.compute_hand_angles`); real-number semantics stand in for
  IEEE doubles, and `Real.arccos`/`Real.sqrt` for `np.arccos`/`np.linalg.norm`.
* `Fusion` — `src/fusion_engine.py` (`FusionEngine.__init__`, `ingest`,
  `close`); the CSV file and the JSON summary artifact are modelled as
  explicit fields of the engine state, and the two monotonic clock reads
  (`time.monotonic_ns()`, `time.monotonic()`) are passed as arguments.
* `Camera` — `src/camera_interface.py` (ROI clamping and numpy-slice
  cropping in `_capture_loop`, `set_roi`, the latest-frame buffer and
  `read`).
* `Sensors` — `src/grip_interface.py` (`read_force`) and
  `src/emg_interface.py` (`read_sample`); Python's dynamically typed
  return values are embedded in a small sum type so the two reads' shapes
  can be compared.
-/

namespace MirrorBox

/-- A 3-D coordinate triple, one row of the `(N, 3)` numpy array built by
`compute_hand_angles` from the landmark list. -/
structure P3 where
  x : ℝ
  y : ℝ
  z : ℝ

/-- Componentwise difference `a - b` of two landmark points (`p1 - p2` on
numpy arrays). -/
def P3.sub (a b : P3) : P3 := ⟨a.x - b.x, a.y - b.y, a.z - b.z⟩

/-- Dot product `np.dot` of two 3-vectors. -/
def P3.dot (a b : P3) : ℝ := a.x * b.x + a.y * b.y + a.z * b.z

/-- Euclidean magnitude `np.linalg.norm` of a 3-vector. -/
noncomputable def P3.norm (a : P3) : ℝ := Real.sqrt (a.dot a)

/-- Componentwise division of a vector by a scalar (`v / norm`). -/
noncomputable def P3.divs (a : P3) (c : ℝ) : P3 := ⟨a.x / c, a.y / c, a.z / c⟩

/-- `np.clip x lo hi`. -/
def clip (x lo hi : ℝ) : ℝ := max lo (min x hi)

/-- `np.degrees`: radians to degrees. -/
noncomputable def degrees (r : ℝ) : ℝ := r * 180 / Real.pi

/-- Python `round(x, 1)` (model: round half away from the even-tie subtlety
is irrelevant here; Mathlib `round` is round-half-up, and no claim touches
a tie). -/
noncomputable def round1 (x : ℝ) : ℝ := ((round (x * 10) : ℤ) : ℝ) / 10

/-- Python `round(x, 2)`. -/
noncomputable def round2 (x : ℝ) : ℝ := ((round (x * 100) : ℤ) : ℝ) / 100

/-- Python `round(x, 4)`. -/
noncomputable def round4 (x : ℝ) : ℝ := ((round (x * 10000) : ℤ) : ℝ) / 10000

/-- `AngleEngine._compute_angle(p1, p2, p3)` from `src/angle_utils.py`:
the angle at `p2` between `p1 - p2` and `p3 - p2` via normalized dot
product, clipped to `[-1, 1]` before `arccos`, in degrees; returns `0.0`
when either vector's magnitude is below `1e-6`.  The Python function is
total on finite inputs (the clip keeps `arccos` in domain), matching this
total definition. -/
noncomputable def computeAngle (p1 p2 p3 : P3) : ℝ :=
  let v1 := p1.sub p2
  let v2 := p3.sub p2
  let norm1 := v1.norm
  let norm2 := v2.norm
  if norm1 < 1e-6 ∨ norm2 < 1e-6 then 0.0
  else
    let unit_v1 := v1.divs norm1
    let unit_v2 := v2.divs norm2
    degrees (Real.arccos (clip (unit_v1.dot unit_v2) (-1.0) 1.0))

/-- The landmark array `coords`: the source builds an `(N, 3)` array from
the 21 MediaPipe landmarks and indexes it with the fixed `JOINTS` indices
`0..20`; the model takes the row lookup as a total function. -/
def Landmarks : Type := ℕ → P3

/-- The three `180 - angle` flexion entries `mcp, pip, dip` computed for a
non-thumb finger with landmark indices `[i0, i1, i2, i3]` in
`compute_hand_angles` (wrist is index 0). -/
noncomputable def nonThumbAngles (c : Landmarks) (i0 i1 i2 i3 : ℕ) :
    List (String × ℝ) :=
  [("mcp", round1 (180 - computeAngle (c 0) (c i0) (c i1))),
   ("pip", round1 (180 - computeAngle (c i0) (c i1) (c i2))),
   ("dip", round1 (180 - computeAngle (c i1) (c i2) (c i3)))]

/-- `AngleEngine.compute_hand_angles` from `src/angle_utils.py`: iterates
the `JOINTS` dict (thumb `[1,2,3,4]`, index `[5,6,7,8]`, middle
`[9,10,11,12]`, ring `[13,14,15,16]`, pinky `[17,18,19,20]`, wrist
skipped).  The thumb entry stores the two raw angles `mcp, ip` with no
`180 -` subtraction; each other finger stores `180 - angle`, all rounded
to one decimal.  The Python dict is modelled as an association list in
insertion order. -/
noncomputable def computeHandAngles (c : Landmarks) :
    List (String × List (String × ℝ)) :=
  [("thumb",
     [("mcp", round1 (computeAngle (c 1) (c 2) (c 3))),
      ("ip", round1 (computeAngle (c 2) (c 3) (c 4)))]),
   ("index", nonThumbAngles c 5 6 7 8),
   ("middle", nonThumbAngles c 9 10 11 12),
   ("ring", nonThumbAngles c 13 14 15 16),
   ("pinky", nonThumbAngles c 17 18 19 20)]

/-- `d.get(finger, {}).get(joint)`: joint lookup in the nested angle
dictionary. -/
def anglesGet (d : List (String × List (String × ℝ)))
    (finger joint : String) : Option ℝ :=
  (d.lookup finger).bind fun m => m.lookup joint

/-- A fully extended hand: every landmark `i` at `(i, 0, 0)`, so each
finger chain is collinear with the wrist. -/
noncomputable def straightHand : Landmarks := fun i => ⟨(i : ℝ), 0, 0⟩

/-! ## Camera interface: ROI clamping, cropping and the latest-frame buffer
(`src/camera_interface.py`). -/

/-- The clamping block of `CameraInterface._capture_loop` (lines 150-156):
given the frame shape `(frame_h, frame_w)` and the configured ROI
`(x, y, w, h)`, produce the clamped `(x, y, w, h)` actually used for the
slice. -/
def clampRoi (frame_h frame_w : ℤ) (x y w h : ℤ) : ℤ × ℤ × ℤ × ℤ :=
  let x' := max 0 (min x frame_w)
  let y' := max 0 (min y frame_h)
  let w' := max 1 (min w (frame_w - x'))
  let h' := max 1 (min h (frame_h - y'))
  (x', y', w', h')

/-- Length of the numpy basic slice `a[start:stop]` along an axis of
length `len` (positive step): negative endpoints count from the end, and
both endpoints are clamped into `[0, len]`, so slicing never raises. -/
def sliceLen (len start stop : ℤ) : ℤ :=
  let s := if start < 0 then max 0 (len + start) else min start len
  let e := if stop < 0 then max 0 (len + stop) else min stop len
  max 0 (e - s)

/-- Shape `(rows, cols)` of the cropped frame `frame[y:y+h, x:x+w]`
published by `_capture_loop` after clamping the configured ROI
`(x, y, w, h)` against a `frame_h × frame_w` frame. -/
def cropShape (frame_h frame_w : ℤ) (x y w h : ℤ) : ℤ × ℤ :=
  let r := clampRoi frame_h frame_w x y w h
  (sliceLen frame_h r.2.1 (r.2.1 + r.2.2.2), sliceLen frame_w r.1 (r.1 + r.2.2.1))

/-- `CameraInterface.set_roi(x, y, w, h)`: stores the rectangle when
`w > 0 and h > 0 and x >= 0 and y >= 0`, otherwise logs a warning and
keeps the previous ROI state. -/
def set_roi (cur : Option (ℤ × ℤ × ℤ × ℤ)) (x y w h : ℤ) :
    Option (ℤ × ℤ × ℤ × ℤ) :=
  if 0 < w ∧ 0 < h ∧ 0 ≤ x ∧ 0 ≤ y then some (x, y, w, h) else cur

/-- The latest-frame slot of `CameraInterface`: `frame_buffer` starts as
`None` and `timestamp_buffer` as `0`. -/
structure CamBuffer (α : Type) where
  frame_buffer : Option α
  timestamp_buffer : ℤ

/-- Initial buffer state set in `CameraInterface.__init__`. -/
def CamBuffer.init {α : Type} : CamBuffer α := ⟨none, 0⟩

/-- The critical section at the end of `_capture_loop`: replace the stored
frame and stamp it with the current `time.monotonic_ns()` reading. -/
def publish {α : Type} (_b : CamBuffer α) (f : α) (t : ℤ) : CamBuffer α :=
  ⟨some f, t⟩

/-- A run of the capture loop: apply a sequence of publishes in order. -/
def publishAll {α : Type} (b : CamBuffer α) (ps : List (α × ℤ)) : CamBuffer α :=
  ps.foldl (fun s p => publish s p.1 p.2) b

/-- `CameraInterface.read()`: non-blocking; returns `(copy of latest
frame, its timestamp)` or `(None, 0)` when no frame has been produced.
Frames are immutable in the model, so `.copy()` is the identity. -/
def camRead {α : Type} (b : CamBuffer α) : Option α × ℤ :=
  match b.frame_buffer with
  | some f => (some f, b.timestamp_buffer)
  | none => (none, 0)

/-! ## Sensor reads (`src/grip_interface.py`, `src/emg_interface.py`).
Python is dynamically typed, so the two reads' return values are embedded
in one sum type to compare their shapes. -/

/-- A value returned by a sensor read: either a bare Python float or a
`(timestamp_ns, value)` tuple. -/
inductive SensorRead where
  | scalar (v : ℝ)
  | timed (ts : ℤ) (v : ℝ)

/-- Whether a read result is a `(timestamp_ns, value)` tuple. -/
def SensorRead.isTimed : SensorRead → Bool
  | .timed _ _ => true
  | .scalar _ => false

/-- Python float modulo `a % b` for `b > 0` (used for `t % 5.0`). -/
noncomputable def fmod (a b : ℝ) : ℝ := a - b * ⌊a / b⌋

/-- `EMGInterface._generate_synthetic_emg`: baseline noise with a burst
while `2.0 < t % 5.0 < 3.0`.  The two `np.random.normal` draws are passed
in as `noise` and `burst`. -/
noncomputable def syntheticEmg (t noise burst : ℝ) : ℝ :=
  let cycle := fmod t 5
  if 2 < cycle ∧ cycle < 3 then max 0 burst else max 0 noise

/-- `EMGInterface.read_sample()`: returns the `(timestamp_ns, value)`
tuple, with the synthetic value in mock mode and `0.0` otherwise.  The
clock reading `ts` and the random draws are arguments. -/
noncomputable def emgReadSample (mock : Bool) (ts : ℤ) (t noise burst : ℝ) :
    SensorRead :=
  .timed ts (if mock then syntheticEmg t noise burst else 0.0)

/-- `GripInterface.read_force()`: returns a bare float — `max(0, 10 *
sin(t) + 10)` in mock mode (with `t` the `time.monotonic()` reading),
`0.0` otherwise. -/
noncomputable def gripReadForce (mock : Bool) (t : ℝ) : SensorRead :=
  if mock then .scalar (max 0 (10 * Real.sin t + 10)) else .scalar 0.0

/-! ## Fusion engine (`src/fusion_engine.py`). -/

/-- `HandDetectionResult` from `src/hand_tracker.py`, as consumed by
`FusionEngine.ingest` (`handedness`, `confidence`, `landmarks`). -/
structure VisionResult where
  timestamp : ℤ
  landmarks : Landmarks
  handedness : String
  confidence : ℝ

/-- One CSV data row written by `FusionEngine.ingest`, field per column
(the last column is headed `grip_force` but holds the local `grip_val`). -/
structure Row where
  timestamp_ns : ℤ
  trial_time_s : ℝ
  hand_visible : ℕ
  handedness : String
  confidence : ℝ
  index_mcp : ℝ
  index_pip : ℝ
  index_dip : ℝ
  emg_val : ℝ
  grip_val : ℝ

/-- The `summary` dict persisted to `summary.json` by
`FusionEngine.close`. -/
structure Summary where
  session_id : String
  duration_sec : ℝ
  total_frames : ℕ
  avg_fps : ℝ
  file_path : String

/-- `FusionEngine` state: the open CSV log (header plus appended rows),
the in-memory `frame_data` buffer, the session start time, and the
summary artifact on disk (`none` until `close` writes it). -/
structure EngineState where
  session_id : String
  start_time : ℝ
  frame_data : List Row
  csvHeader : List String
  csvRows : List Row
  csvOpen : Bool
  summary : Option Summary

/-- The header row written once by `FusionEngine.__init__`; its last
column is named `grip_force`. -/
def fusionHeader : List String :=
  ["timestamp_ns", "trial_time_s",
   "hand_visible", "handedness", "confidence",
   "index_mcp", "index_pip", "index_dip",
   "emg_val", "grip_force"]

/-- `os.path.join("data", session_id) + "/trial_log.csv"`. -/
def csvPath (session_id : String) : String :=
  "data/" ++ session_id ++ "/trial_log.csv"

/-- `FusionEngine.__init__(session_id)`: record the `time.monotonic()`
start reading `t0`, open the CSV log and write the header exactly once. -/
def EngineState.init (session_id : String) (t0 : ℝ) : EngineState :=
  { session_id := session_id
    start_time := t0
    frame_data := []
    csvHeader := fusionHeader
    csvRows := []
    csvOpen := true
    summary := none }

/-- The default angles dict `{'index': {'mcp': 0, 'pip': 0, 'dip': 0}}`
used by `ingest` when no hand is visible. -/
def defaultAngles : List (String × List (String × ℝ)) :=
  [("index", [("mcp", 0), ("pip", 0), ("dip", 0)])]

/-- Inputs of one `FusionEngine.ingest` call: the two clock readings taken
inside the call (`time.monotonic_ns()` and `time.monotonic()`), the
optional vision result, the EMG `(timestamp_ns, value)` sample and the
bare grip float. -/
structure IngestInput where
  ts_now : ℤ
  t_now : ℝ
  vision : Option VisionResult
  emg_sample : ℤ × ℝ
  grip_sample : ℝ

/-- The dict returned by `ingest`. -/
structure IngestResult where
  angles : List (String × List (String × ℝ))
  emg : ℝ
  grip : ℝ

/-- The row assembled by `FusionEngine.ingest` (lines 40-74): vision
fields default to `0 / "None" / 0.0` and the default angle dict when the
detection is absent; the EMG tuple is destructured into `(emg_ts,
emg_val)` with only `emg_val` used; the grip sample is used directly as a
scalar. -/
noncomputable def mkRow (start_time : ℝ) (i : IngestInput) : Row :=
  let trial_time := i.t_now - start_time
  let angles := match i.vision with
    | some v => computeHandAngles v.landmarks
    | none => defaultAngles
  { timestamp_ns := i.ts_now
    trial_time_s := round4 trial_time
    hand_visible := match i.vision with | some _ => 1 | none => 0
    handedness := match i.vision with | some v => v.handedness | none => "None"
    confidence := round2 (match i.vision with | some v => v.confidence | none => 0.0)
    index_mcp := ((anglesGet angles "index" "mcp").getD 0)
    index_pip := ((anglesGet angles "index" "pip").getD 0)
    index_dip := ((anglesGet angles "index" "dip").getD 0)
    emg_val := round2 i.emg_sample.2
    grip_val := round2 i.grip_sample }

/-- `FusionEngine.ingest`: append the assembled row to the CSV log and to
`frame_data` (in that order in the source), and return the result dict.
The function is total: a missing detection takes the default branch and
never fails. -/
noncomputable def ingest (s : EngineState) (i : IngestInput) :
    EngineState × Row × IngestResult :=
  let row := mkRow s.start_time i
  let angles := match i.vision with
    | some v => computeHandAngles v.landmarks
    | none => defaultAngles
  ({ s with csvRows := s.csvRows ++ [row], frame_data := s.frame_data ++ [row] },
   row,
   { angles := angles, emg := i.emg_sample.2, grip := i.grip_sample })

/-- A sequence of `ingest` calls, in order. -/
noncomputable def runIngest (s : EngineState) (l : List IngestInput) : EngineState :=
  l.foldl (fun st i => (ingest st i).1) s

/-- `FusionEngine.close()` with clock reading `t`: close the CSV file
(idempotent on an already-closed file, as in Python) and rewrite
`summary.json` with the duration, frame count and average rate recomputed
at `t`. -/
noncomputable def close (s : EngineState) (t : ℝ) : EngineState :=
  let duration := t - s.start_time
  let frames := s.frame_data.length
  let fps := if duration > 0 then (frames : ℝ) / duration else 0
  { s with
    csvOpen := false
    summary := some
      { session_id := s.session_id
        duration_sec := duration
        total_frames := frames
        avg_fps := fps
        file_path := csvPath s.session_id } }

/-! ## Helper lemmas -/

/-- `Python round(0, 2) = 0`. -/
lemma round2_zero : round2 0.0 = 0 := by
  have h : (0.0 : ℝ) * 100 = 0 := by norm_num
  simp [round2, h]

/-- `round1` fixes integers times ten, in particular `180`. -/
lemma round1_180 : round1 180 = 180 := by
  have h : (180 : ℝ) * 10 = 1800 := by norm_num
  rw [round1, h]
  norm_num

/-- `Python round(0, 1) = 0`. -/
lemma round1_zero : round1 0 = 0 := by
  simp [round1]

/-- `ingest` never touches the header written at construction. -/
lemma ingest_csvHeader (s : EngineState) (i : IngestInput) :
    (ingest s i).1.csvHeader = s.csvHeader := rfl

/-- `ingest` never changes the recorded session start time. -/
lemma ingest_start_time (s : EngineState) (i : IngestInput) :
    (ingest s i).1.start_time = s.start_time := rfl

/-- A run of `ingest` calls leaves the header untouched. -/
lemma runIngest_csvHeader (l : List IngestInput) :
    ∀ s : EngineState, (runIngest s l).csvHeader = s.csvHeader := by
  induction l with
  | nil => intro s; rfl
  | cons i l ih =>
      intro s
      simpa [runIngest] using ih (ingest s i).1

/-- A run of `ingest` calls appends one row per call to the CSV log, in
call order. -/
lemma runIngest_csvRows (l : List IngestInput) :
    ∀ s : EngineState,
      (runIngest s l).csvRows = s.csvRows ++ l.map (mkRow s.start_time) := by
  induction l with
  | nil => intro s; simp [runIngest]
  | cons i l ih =>
      intro s
      have hstep : runIngest s (i :: l) = runIngest (ingest s i).1 l := rfl
      rw [hstep, ih (ingest s i).1]
      simp [ingest]

/-- `round` is monotone. -/
lemma round_mono_le {a b : ℝ} (h : a ≤ b) : round a ≤ round b := by
  rw [round_eq, round_eq]
  exact Int.floor_le_floor (by linarith)

/-- `round4` is monotone. -/
lemma round4_mono {a b : ℝ} (h : a ≤ b) : round4 a ≤ round4 b := by
  unfold round4
  have := round_mono_le (mul_le_mul_of_nonneg_right h (by norm_num : (0:ℝ) ≤ 10000))
  have hc : ((round (a * 10000) : ℤ) : ℝ) ≤ ((round (b * 10000) : ℤ) : ℝ) :=
    Int.cast_le.2 this
  exact div_le_div_of_nonneg_right hc (by norm_num)

/-! ## Claims about the fusion engine -/

/-- C10: the EMG sample's timestamp has no influence on the fused output:
two `ingest` calls in the same engine state whose EMG samples carry the
same value but different timestamps (all other inputs and clock readings
equal) produce identical new state, logged row and returned result. -/
theorem ingest_ignores_emg_timestamp (s : EngineState) (ts_now : ℤ)
    (t_now : ℝ) (vision : Option VisionResult) (ts₁ ts₂ : ℤ) (v grip : ℝ) :
    ingest s ⟨ts_now, t_now, vision, (ts₁, v), grip⟩ =
      ingest s ⟨ts_now, t_now, vision, (ts₂, v), grip⟩ := rfl

/-- C5: `ingest` with an absent detection always succeeds (the model is a
total function) and appends a record with `hand_visible = 0`,
`handedness = "None"`, confidence `0`, all index-finger angle columns at
their default `0`, while the EMG and grip columns are populated from the
supplied samples; the row is appended to the CSV log and `frame_data`. -/
theorem ingest_absent_detection (s : EngineState) (ts_now : ℤ) (t_now : ℝ)
    (emg : ℤ × ℝ) (grip : ℝ) :
    (ingest s ⟨ts_now, t_now, none, emg, grip⟩).2.1.hand_visible = 0 ∧
    (ingest s ⟨ts_now, t_now, none, emg, grip⟩).2.1.handedness = "None" ∧
    (ingest s ⟨ts_now, t_now, none, emg, grip⟩).2.1.confidence = 0 ∧
    (ingest s ⟨ts_now, t_now, none, emg, grip⟩).2.1.index_mcp = 0 ∧
    (ingest s ⟨ts_now, t_now, none, emg, grip⟩).2.1.index_pip = 0 ∧
    (ingest s ⟨ts_now, t_now, none, emg, grip⟩).2.1.index_dip = 0 ∧
    (ingest s ⟨ts_now, t_now, none, emg, grip⟩).2.1.emg_val = round2 emg.2 ∧
    (ingest s ⟨ts_now, t_now, none, emg, grip⟩).2.1.grip_val = round2 grip ∧
    (ingest s ⟨ts_now, t_now, none, emg, grip⟩).1.csvRows =
      s.csvRows ++ [(ingest s ⟨ts_now, t_now, none, emg, grip⟩).2.1] ∧
    (ingest s ⟨ts_now, t_now, none, emg, grip⟩).1.frame_data =
      s.frame_data ++ [(ingest s ⟨ts_now, t_now, none, emg, grip⟩).2.1] := by
  refine ⟨rfl, rfl, ?_, rfl, rfl, rfl, rfl, rfl, rfl, rfl⟩
  exact round2_zero

/-- The header columns asserted by the spec's persisted-log format
section; second definition written from the spec's words for comparison
with `fusionHeader`, which is taken from the source. -/
def specHeaderColumns : List String :=
  ["timestamp_ns", "trial_time_s",
   "hand_visible", "handedness", "confidence",
   "index_mcp", "index_pip", "index_dip",
   "emg_val", "grip_val"]

/-- C9 counterexample: the header actually written by
`FusionEngine.__init__` names its last column `grip_force`, so it is not
the claimed column list, nor any superset of it: `grip_val` does not
occur at all. -/
theorem fusion_header_grip_val_cex :
    "grip_val" ∉ fusionHeader ∧ fusionHeader ≠ specHeaderColumns := by
  decide

/-- C9 amended: constructing a `FusionEngine` writes the fixed header
exactly once — it is present immediately after construction and no run of
`ingest` calls ever changes it — and its columns are exactly
`timestamp_ns, trial_time_s, hand_visible, handedness, confidence,
index_mcp, index_pip, index_dip, emg_val, grip_force` (the grip column is
named `grip_force`, not `grip_val`). -/
theorem fusion_header_written_once (sid : String) (t0 : ℝ)
    (l : List IngestInput) :
    (EngineState.init sid t0).csvHeader =
      ["timestamp_ns", "trial_time_s",
       "hand_visible", "handedness", "confidence",
       "index_mcp", "index_pip", "index_dip",
       "emg_val", "grip_force"] ∧
    (runIngest (EngineState.init sid t0) l).csvHeader =
      (EngineState.init sid t0).csvHeader := by
  exact ⟨rfl, runIngest_csvHeader l (EngineState.init sid t0)⟩

/-- C4 counterexample: a second `close` call at a later clock reading
rewrites the summary artifact — its recorded duration is recomputed, so
the persisted summary differs from the one the first call wrote. -/
theorem close_twice_rewrites_summary_cex :
    (close (close (EngineState.init "s1" 0) 1) 2).summary ≠
      (close (EngineState.init "s1" 0) 1).summary := by
  simp only [close, EngineState.init, Option.some.injEq, ne_eq]
  intro h
  have hd := congrArg Summary.duration_sec h
  norm_num at hd

/-- C4 amended: a second `close` never raises (the model is total), closes
nothing further, appends no rows and creates no additional artifact, but
it rewrites `summary.json` as if `close` had been called once at the
second call's clock reading — duration and average rate are recomputed,
so the persisted summary is unchanged only when no clock time has
elapsed (in particular `close` at an equal reading is a no-op). -/
theorem close_close (s : EngineState) (t₁ t₂ : ℝ) :
    close (close s t₁) t₂ = close s t₂ ∧ close (close s t₁) t₁ = close s t₁ :=
  ⟨rfl, rfl⟩

/-- C3 counterexample: `GripInterface.read_force` returns a bare float —
in hardware (non-mock) mode it returns `0.0`, a scalar, not a
`(timestamp_ns, value)` tuple — while `EMGInterface.read_sample` does
return the timed pair. -/
theorem grip_read_scalar_cex :
    gripReadForce false 0 = SensorRead.scalar 0.0 ∧
    (gripReadForce false 0).isTimed = false ∧
    (emgReadSample false 0 0 0 0).isTimed = true := by
  refine ⟨rfl, rfl, rfl⟩

/-- C3 amended: for every call, `GripInterface.read_force` returns a bare
float force value with no timestamp (never the `(timestamp_ns, value)`
pair), while the EMG sensor's `read_sample` always returns the timed
`SensorSample` pair; the two reads do not share the same shape, and
`FusionEngine.ingest` accordingly consumes the grip sample as a scalar. -/
theorem grip_scalar_emg_timed (mock : Bool) (t : ℝ) (ts : ℤ)
    (tm noise burst : ℝ) :
    (gripReadForce mock t).isTimed = false ∧
    (emgReadSample mock ts tm noise burst).isTimed = true := by
  cases mock <;>
    simp [gripReadForce, emgReadSample, SensorRead.isTimed]

/-! ## Claims about the camera interface -/

/-- C2 counterexample: the ROI `(x=640, y=0, w=10, h=10)` is accepted by
`set_roi` (all sanity checks pass), yet on a `480 × 640` frame the
clamped crop `frame[0:10, 640:641]` is empty — zero columns — because the
clamp allows `x` to equal the frame width.  The loop still publishes this
empty frame. -/
theorem roi_crop_empty_cex :
    set_roi none 640 0 10 10 = some (640, 0, 10, 10) ∧
    cropShape 480 640 640 0 10 10 = (10, 0) := by
  decide

/-- C2 amended: the crop applied in the capture loop clamps the configured
ROI to the frame bounds and never raises (the model is a total function),
and whenever the ROI's origin lies inside the frame (`x < frame width`
and `y < frame height`) the published result is non-empty, at least
`1×1` and at most the frame size; but when `x` equals or exceeds the
frame width (or `y` the frame height) the crop is empty in that
dimension, because `x` is clamped to at most `frame_w`, not
`frame_w - 1`. -/
theorem roi_crop_clamped (H W x y w h : ℤ) (hH : 0 < H) (hW : 0 < W)
    (hx : 0 ≤ x) (_hy : 0 ≤ y) (hw : 0 < w) (hh : 0 < h)
    (hxW : x < W) (hyH : y < H) :
    1 ≤ (cropShape H W x y w h).1 ∧ (cropShape H W x y w h).1 ≤ H ∧
    1 ≤ (cropShape H W x y w h).2 ∧ (cropShape H W x y w h).2 ≤ W := by
  simp only [cropShape, clampRoi, sliceLen]
  split_ifs <;> omega

/-- Witness for the amended C2 theorem: a `100 × 50` ROI at `(10, 20)`
inside a `480 × 640` frame crops to exactly `50` rows and `100` columns,
within the guaranteed bounds. -/
theorem roi_crop_clamped_witness :
    ((0:ℤ) < 480 ∧ (0:ℤ) < 640 ∧ (0:ℤ) ≤ 10 ∧ (0:ℤ) ≤ 20 ∧
      (0:ℤ) < 100 ∧ (0:ℤ) < 50 ∧ (10:ℤ) < 640 ∧ (20:ℤ) < 480) ∧
    (1 ≤ (cropShape 480 640 10 20 100 50).1 ∧
      (cropShape 480 640 10 20 100 50).1 ≤ 480 ∧
      1 ≤ (cropShape 480 640 10 20 100 50).2 ∧
      (cropShape 480 640 10 20 100 50).2 ≤ 640) ∧
    cropShape 480 640 10 20 100 50 = (50, 100) :=
  ⟨by decide,
   roi_crop_clamped 480 640 10 20 100 50 (by decide) (by decide) (by decide)
     (by decide) (by decide) (by decide) (by decide) (by decide),
   by decide⟩

/-- Appending one publish to a run updates the slot with exactly that
frame and timestamp. -/
lemma publishAll_append {α : Type} (b : CamBuffer α) (l : List (α × ℤ))
    (p : α × ℤ) :
    publishAll b (l ++ [p]) = publish (publishAll b l) p.1 p.2 := by
  simp [publishAll, List.foldl_append]

/-- After the first `i + 1` publishes of a run, `read` returns the
`i`-th published frame and its timestamp. -/
lemma camRead_publishAll_get {α : Type} (b : CamBuffer α)
    (ps : List (α × ℤ)) (i : ℕ) (hi : i < ps.length) :
    camRead (publishAll b (ps.take (i + 1))) =
      (some (ps.get ⟨i, hi⟩).1, (ps.get ⟨i, hi⟩).2) := by
  have htake : ps.take (i + 1) = ps.take i ++ [ps.get ⟨i, hi⟩] := by
    rw [List.take_succ]
    simp [List.getElem?_eq_getElem hi]
  rw [htake, publishAll_append]
  rfl

/-- C8: `CameraInterface.read` before any frame has been produced returns
`(absent, 0)` (and is non-blocking: the model is a pure total function);
once at least one frame has been produced, every read returns a non-null
copy of the latest published frame with its timestamp; and when the
publish timestamps of a run strictly increase (the producer stamps each
publish with a fresh `time.monotonic_ns()` reading), the timestamp
returned by `read` strictly increases across successively produced
frames. -/
theorem camera_read_latest {α : Type} (ps : List (α × ℤ))
    (hmono : (ps.map Prod.snd).Pairwise (· < ·)) :
    camRead (CamBuffer.init : CamBuffer α) = (none, 0) ∧
    (∀ (l : List (α × ℤ)) (f : α) (t : ℤ),
      camRead (publishAll CamBuffer.init (l ++ [(f, t)])) = (some f, t)) ∧
    (∀ i j : ℕ, i < j → j < ps.length →
      (camRead (publishAll CamBuffer.init (ps.take (i + 1)))).2 <
        (camRead (publishAll CamBuffer.init (ps.take (j + 1)))).2) := by
  refine ⟨rfl, ?_, ?_⟩
  · intro l f t
    rw [publishAll_append]
    rfl
  · intro i j hij hj
    have hi : i < ps.length := lt_trans hij hj
    rw [camRead_publishAll_get CamBuffer.init ps i hi,
      camRead_publishAll_get CamBuffer.init ps j hj]
    have hp := (List.pairwise_iff_get.1 hmono)
      ⟨i, by simpa using hi⟩ ⟨j, by simpa using hj⟩ hij
    simpa using hp

/-- Witness for C8: the run publishing frame `7` at time `5` then frame
`8` at time `9` has strictly increasing timestamps; the fresh buffer
reads `(none, 0)`, after the run `read` returns the latest frame `8` at
time `9`, and the timestamp visible after the first publish (`5`) is
strictly below the one after the second (`9`). -/
theorem camera_read_latest_witness :
    (([((7:ℕ), (5:ℤ)), (8, 9)].map Prod.snd).Pairwise (· < ·)) ∧
    camRead (CamBuffer.init : CamBuffer ℕ) = (none, 0) ∧
    camRead (publishAll CamBuffer.init [((7:ℕ), (5:ℤ)), (8, 9)]) =
      (some 8, 9) ∧
    (camRead (publishAll CamBuffer.init
        ([((7:ℕ), (5:ℤ)), (8, 9)].take 1))).2 <
      (camRead (publishAll CamBuffer.init
        ([((7:ℕ), (5:ℤ)), (8, 9)].take 2))).2 := by
  have hmono : (([((7:ℕ), (5:ℤ)), (8, 9)].map Prod.snd).Pairwise (· < ·)) := by
    decide
  have h := camera_read_latest [((7:ℕ), (5:ℤ)), (8, 9)] hmono
  refine ⟨hmono, h.1, ?_, h.2.2 0 1 (by decide) (by decide)⟩
  have := h.2.1 [((7:ℕ), (5:ℤ))] 8 9
  simpa using this

/-- `round4` of a small non-negative value collapses to `0`: the rounding
granularity is `10⁻⁴` seconds. -/
lemma round4_zero_of {x : ℝ} (h0 : 0 ≤ x) (h1 : x < 5e-5) : round4 x = 0 := by
  have h : round (x * 10000) = 0 := by
    rw [round_eq]
    refine Int.floor_eq_iff.2 ⟨by push_cast; linarith, by push_cast; linarith⟩
  simp [round4, h]

/-- C6 counterexample: two `ingest` calls whose `time.monotonic()`
readings strictly increase (`10⁻⁵` s and `2·10⁻⁵` s after the session
start) log the same `trial_time_s` value `0.0`, because the column is
rounded to four decimal places; the logged `trial_time_s` values are
therefore not strictly increasing. -/
theorem ingest_trial_time_not_strict_cex :
    (0 : ℝ) < 1e-5 ∧ (1e-5 : ℝ) < 2e-5 ∧
    ((runIngest (EngineState.init "s2" 0)
        [⟨0, 1e-5, none, (0, 0), 0⟩, ⟨1, 2e-5, none, (0, 0), 0⟩]).csvRows.map
      Row.trial_time_s) = [0, 0] := by
  refine ⟨by norm_num, by norm_num, ?_⟩
  rw [runIngest_csvRows]
  simp only [EngineState.init, List.nil_append, List.map_cons, List.map_map,
    List.map_nil, Function.comp]
  have h1 : (mkRow 0 ⟨0, 1e-5, none, (0, 0), 0⟩).trial_time_s = 0 := by
    show round4 (1e-5 - 0) = 0
    rw [sub_zero]
    exact round4_zero_of (by norm_num) (by norm_num)
  have h2 : (mkRow 0 ⟨1, 2e-5, none, (0, 0), 0⟩).trial_time_s = 0 := by
    show round4 (2e-5 - 0) = 0
    rw [sub_zero]
    exact round4_zero_of (by norm_num) (by norm_num)
  rw [h1, h2]

/-- C6 amended: for every `N ≥ 1`, calling `ingest` `N` times appends
exactly `N` data rows to the log, in call order (row `i` is assembled
from call `i`'s inputs); when the `time.monotonic()` readings of
successive calls strictly increase, the logged `trial_time_s` values are
non-decreasing — but not necessarily strictly increasing, since the
column is rounded to four decimal places, so two calls less than
`10⁻⁴` s apart can log duplicate values. -/
theorem ingest_rows_in_order (sid : String) (t0 : ℝ) (l : List IngestInput)
    (hmono : List.Chain' (fun a b : IngestInput => a.t_now < b.t_now) l) :
    (runIngest (EngineState.init sid t0) l).csvRows.length = l.length ∧
    (runIngest (EngineState.init sid t0) l).csvRows = l.map (mkRow t0) ∧
    List.Chain' (· ≤ ·)
      ((runIngest (EngineState.init sid t0) l).csvRows.map Row.trial_time_s) := by
  have hr : (runIngest (EngineState.init sid t0) l).csvRows = l.map (mkRow t0) := by
    rw [runIngest_csvRows]
    simp [EngineState.init]
  refine ⟨by rw [hr]; simp, hr, ?_⟩
  rw [hr, List.map_map]
  rw [List.chain'_map]
  refine hmono.imp ?_
  intro a b hab
  show round4 (a.t_now - t0) ≤ round4 (b.t_now - t0)
  exact round4_mono (by linarith)

/-- Witness for the amended C6 theorem: two calls at seconds `1` and `2`
of the trial append exactly two rows with non-decreasing
`trial_time_s`. -/
theorem ingest_rows_in_order_witness :
    List.Chain' (fun a b : IngestInput => a.t_now < b.t_now)
      [⟨0, 1, none, (0, 0), 0⟩, ⟨1, 2, none, (0, 0), 0⟩] ∧
    (runIngest (EngineState.init "w6" 0)
      [⟨0, 1, none, (0, 0), 0⟩, ⟨1, 2, none, (0, 0), 0⟩]).csvRows.length = 2 ∧
    List.Chain' (· ≤ ·)
      ((runIngest (EngineState.init "w6" 0)
        [⟨0, 1, none, (0, 0), 0⟩, ⟨1, 2, none, (0, 0), 0⟩]).csvRows.map
        Row.trial_time_s) := by
  have hmono : List.Chain' (fun a b : IngestInput => a.t_now < b.t_now)
      [⟨0, 1, none, (0, 0), 0⟩, ⟨1, 2, none, (0, 0), 0⟩] := by
    refine List.chain'_cons.2 ⟨?_, List.chain'_singleton _⟩
    show (1 : ℝ) < 2
    norm_num
  have h := ingest_rows_in_order "w6" 0
    [⟨0, 1, none, (0, 0), 0⟩, ⟨1, 2, none, (0, 0), 0⟩] hmono
  exact ⟨hmono, h.1.trans rfl, h.2.2⟩

/-! ## Claims about the angle engine -/

/-- The dot product is symmetric in its arguments. -/
lemma P3.dot_comm (a b : P3) : a.dot b = b.dot a := by
  simp only [P3.dot]
  ring

/-- C7: for all 3-D points, if both `p1 - p2` and `p3 - p2` have magnitude
at least `1e-6` then `_compute_angle(p1, p2, p3)` lies in `[0, 180]`
degrees and equals `_compute_angle(p3, p2, p1)`; if either magnitude is
below `1e-6` (in particular `p1 == p2` or `p3 == p2`) it returns exactly
`0.0`.  It never raises: the model is a total function, the clip keeping
`arccos` inside its domain. -/
theorem compute_angle_range_symm (p1 p2 p3 : P3) :
    ((1e-6 : ℝ) ≤ (p1.sub p2).norm → (1e-6 : ℝ) ≤ (p3.sub p2).norm →
      0 ≤ computeAngle p1 p2 p3 ∧ computeAngle p1 p2 p3 ≤ 180 ∧
      computeAngle p1 p2 p3 = computeAngle p3 p2 p1) ∧
    ((p1.sub p2).norm < 1e-6 ∨ (p3.sub p2).norm < 1e-6 →
      computeAngle p1 p2 p3 = 0) := by
  constructor
  · intro h1 h2
    have hc : ¬((p1.sub p2).norm < 1e-6 ∨ (p3.sub p2).norm < 1e-6) := by
      push_neg
      exact ⟨h1, h2⟩
    have hc' : ¬((p3.sub p2).norm < 1e-6 ∨ (p1.sub p2).norm < 1e-6) := by
      push_neg
      exact ⟨h2, h1⟩
    refine ⟨?_, ?_, ?_⟩
    · simp only [computeAngle]
      rw [if_neg hc]
      simp only [degrees]
      exact div_nonneg (mul_nonneg (Real.arccos_nonneg _) (by norm_num))
        Real.pi_pos.le
    · simp only [computeAngle]
      rw [if_neg hc]
      simp only [degrees]
      have hle := Real.arccos_le_pi
        (clip (((p1.sub p2).divs (p1.sub p2).norm).dot
          ((p3.sub p2).divs (p3.sub p2).norm)) (-1.0) 1.0)
      calc Real.arccos (clip (((p1.sub p2).divs (p1.sub p2).norm).dot
            ((p3.sub p2).divs (p3.sub p2).norm)) (-1.0) 1.0) * 180 / Real.pi
          ≤ Real.pi * 180 / Real.pi := by gcongr
        _ = 180 := by
            rw [mul_comm, mul_div_assoc, div_self Real.pi_ne_zero, mul_one]
    · simp only [computeAngle]
      rw [if_neg hc, if_neg hc', P3.dot_comm]
  · intro h
    simp only [computeAngle]
    rw [if_pos h]
    norm_num

/-- Witness for C7: the right angle at the origin between `(1,0,0)` and
`(0,1,0)` has both vector magnitudes `1 ≥ 1e-6`, lies in `[0, 180]` and
is symmetric; and the degenerate call with `p1 == p2` returns `0`. -/
theorem compute_angle_range_symm_witness :
    ((1e-6 : ℝ) ≤ ((⟨1, 0, 0⟩ : P3).sub ⟨0, 0, 0⟩).norm ∧
     (1e-6 : ℝ) ≤ ((⟨0, 1, 0⟩ : P3).sub ⟨0, 0, 0⟩).norm ∧
     0 ≤ computeAngle ⟨1, 0, 0⟩ ⟨0, 0, 0⟩ ⟨0, 1, 0⟩ ∧
     computeAngle ⟨1, 0, 0⟩ ⟨0, 0, 0⟩ ⟨0, 1, 0⟩ ≤ 180 ∧
     computeAngle ⟨1, 0, 0⟩ ⟨0, 0, 0⟩ ⟨0, 1, 0⟩ =
       computeAngle ⟨0, 1, 0⟩ ⟨0, 0, 0⟩ ⟨1, 0, 0⟩) ∧
    (((⟨0, 0, 0⟩ : P3).sub ⟨0, 0, 0⟩).norm < 1e-6 ∧
     computeAngle ⟨0, 0, 0⟩ ⟨0, 0, 0⟩ ⟨0, 1, 0⟩ = 0) := by
  have h1 : (1e-6 : ℝ) ≤ ((⟨1, 0, 0⟩ : P3).sub ⟨0, 0, 0⟩).norm := by
    simp only [P3.sub, P3.norm, P3.dot]
    norm_num
  have h2 : (1e-6 : ℝ) ≤ ((⟨0, 1, 0⟩ : P3).sub ⟨0, 0, 0⟩).norm := by
    simp only [P3.sub, P3.norm, P3.dot]
    norm_num
  have hd : ((⟨0, 0, 0⟩ : P3).sub ⟨0, 0, 0⟩).norm < 1e-6 := by
    simp only [P3.sub, P3.norm, P3.dot]
    norm_num
  have hmain := (compute_angle_range_symm ⟨1, 0, 0⟩ ⟨0, 0, 0⟩ ⟨0, 1, 0⟩).1 h1 h2
  exact ⟨⟨h1, h2, hmain.1, hmain.2.1, hmain.2.2⟩,
    hd, (compute_angle_range_symm ⟨0, 0, 0⟩ ⟨0, 0, 0⟩ ⟨0, 1, 0⟩).2 (Or.inl hd)⟩

/-- On three collinear points along the x-axis with `p2` strictly between
`p1` and `p3` (gaps at least `1e-6`), `_compute_angle` returns the
straight angle `180`. -/
lemma computeAngle_collinear {a b c : ℝ} (h1 : 1e-6 ≤ b - a)
    (h2 : 1e-6 ≤ c - b) :
    computeAngle ⟨a, 0, 0⟩ ⟨b, 0, 0⟩ ⟨c, 0, 0⟩ = 180 := by
  have hba : (0 : ℝ) < b - a := lt_of_lt_of_le (by norm_num) h1
  have hcb : (0 : ℝ) < c - b := lt_of_lt_of_le (by norm_num) h2
  have hn1 : ((⟨a, 0, 0⟩ : P3).sub ⟨b, 0, 0⟩).norm = b - a := by
    simp only [P3.sub, P3.norm, P3.dot]
    rw [show ((a - b) * (a - b) + ((0 : ℝ) - 0) * ((0 : ℝ) - 0) +
      ((0 : ℝ) - 0) * ((0 : ℝ) - 0)) = (b - a) ^ 2 from by ring]
    exact Real.sqrt_sq hba.le
  have hn2 : ((⟨c, 0, 0⟩ : P3).sub ⟨b, 0, 0⟩).norm = c - b := by
    simp only [P3.sub, P3.norm, P3.dot]
    rw [show ((c - b) * (c - b) + ((0 : ℝ) - 0) * ((0 : ℝ) - 0) +
      ((0 : ℝ) - 0) * ((0 : ℝ) - 0)) = (c - b) ^ 2 from by ring]
    exact Real.sqrt_sq hcb.le
  have hcnd : ¬(((⟨a, 0, 0⟩ : P3).sub ⟨b, 0, 0⟩).norm < 1e-6 ∨
      ((⟨c, 0, 0⟩ : P3).sub ⟨b, 0, 0⟩).norm < 1e-6) := by
    rw [hn1, hn2]
    push_neg
    exact ⟨h1, h2⟩
  simp only [computeAngle]
  rw [if_neg hcnd, hn1, hn2]
  have hdot : ((((⟨a, 0, 0⟩ : P3).sub ⟨b, 0, 0⟩).divs (b - a)).dot
      (((⟨c, 0, 0⟩ : P3).sub ⟨b, 0, 0⟩).divs (c - b))) = -1 := by
    simp only [P3.sub, P3.divs, P3.dot, sub_self, zero_div, mul_zero, add_zero]
    rw [div_self hcb.ne', mul_one,
      show (a - b : ℝ) = -(b - a) from by ring, neg_div, div_self hba.ne']
  rw [hdot]
  have hclip : clip (-1) (-1.0) 1.0 = -1 := by
    rw [clip]
    norm_num
  rw [hclip, Real.arccos_neg_one, degrees, mul_comm, mul_div_assoc,
    div_self Real.pi_ne_zero, mul_one]

/-- C1 counterexample: on the fully extended hand every joint chain is
collinear, so the subtraction-from-180 convention would report `0` for
every angle — and indeed the index MCP column is `0` — but the thumb MCP
is reported as `180`: the thumb does not use the convention, and `0°`
does not mean fully extended for the thumb. -/
theorem thumb_angle_extended_cex :
    anglesGet (computeHandAngles straightHand) "thumb" "mcp" = some 180 ∧
    anglesGet (computeHandAngles straightHand) "index" "mcp" = some 0 := by
  have e1 : computeAngle (straightHand 1) (straightHand 2) (straightHand 3)
      = 180 := by
    show computeAngle ⟨((1 : ℕ) : ℝ), 0, 0⟩ ⟨((2 : ℕ) : ℝ), 0, 0⟩
      ⟨((3 : ℕ) : ℝ), 0, 0⟩ = 180
    exact computeAngle_collinear (by push_cast; norm_num) (by push_cast; norm_num)
  have e2 : computeAngle (straightHand 0) (straightHand 5) (straightHand 6)
      = 180 := by
    show computeAngle ⟨((0 : ℕ) : ℝ), 0, 0⟩ ⟨((5 : ℕ) : ℝ), 0, 0⟩
      ⟨((6 : ℕ) : ℝ), 0, 0⟩ = 180
    exact computeAngle_collinear (by push_cast; norm_num) (by push_cast; norm_num)
  have g1 : anglesGet (computeHandAngles straightHand) "thumb" "mcp" =
      some (round1 (computeAngle (straightHand 1) (straightHand 2)
        (straightHand 3))) := rfl
  have g2 : anglesGet (computeHandAngles straightHand) "index" "mcp" =
      some (round1 (180 - computeAngle (straightHand 0) (straightHand 5)
        (straightHand 6))) := rfl
  constructor
  · rw [g1, e1, round1_180]
  · rw [g2, e2, sub_self, round1_zero]

/-- C1 amended: `compute_hand_angles` reports the thumb's two angles
(`mcp`, `ip`) as the raw 3-point angles with no subtraction from 180 —
the opposite convention from the other fingers (shown here for the index
MCP), so for the thumb `180°` means fully extended and smaller values
mean more flexed. -/
theorem thumb_angles_raw_convention (c : Landmarks) :
    anglesGet (computeHandAngles c) "thumb" "mcp" =
      some (round1 (computeAngle (c 1) (c 2) (c 3))) ∧
    anglesGet (computeHandAngles c) "thumb" "ip" =
      some (round1 (computeAngle (c 2) (c 3) (c 4))) ∧
    anglesGet (computeHandAngles c) "index" "mcp" =
      some (round1 (180 - computeAngle (c 0) (c 5) (c 6))) :=
  ⟨rfl, rfl, rfl⟩

end MirrorBox
